import Mathlib

/-!
Shallow embedding of `get_ml.py` (a feed-based media fetcher) and proofs
about its synchronization procedure.

The Python program reads a config file (`main`), and for each configured
source calls `get_feed(path, url, show_name, suffix, date_func)`, which
parses an RSS feed, derives a file name per entry, downloads missing or
empty files with an external `curl` invocation (`download_mp3`) and writes
ID3 metadata into downloaded files (`store_meta`).

External effects (the feed parser, the curl subprocess, the mutagen tag
writer, the current time) are modelled as an explicit environment `Env`.
The file system is a map from path strings to files.  Python exceptions
are modelled by `Except`/`Option PyErr` results: several code paths in the
source raise real exceptions (misspelled names such as `loggging`,
`sucess`, the undefined `MutagenError`, an `IndexError` on `name[-1]` for
an empty name), and the embedding reproduces them faithfully.
-/

namespace GetML

/-- Python exception kinds that the embedded code can raise. -/
inductive PyErr where
  | nameError
  | unboundLocal
  | indexError
  | valueError
  | keyError
  | fileNotFound
deriving DecidableEq

/-- Calendar date (the only part of a Python `datetime` this program
observes: `strftime('%Y-%m-%d')` reads year, month, day). -/
structure Date where
  y : Nat
  m : Nat
  d : Nat
deriving DecidableEq

/-- A file on disk: its size plus the ID3 tag fields this program touches. -/
structure MFile where
  size : Nat
  tagTitle : Option String
  tagDate : Option String
deriving DecidableEq

/-- File system: maps a path to the file stored there (`none` = absent). -/
def FS := String → Option MFile

/-- A link object of a feed entry (`j['href']`; the key may be absent). -/
structure Link where
  href : Option String
deriving DecidableEq

/-- A feed entry: optional `title`, optional `published`, optional `links`. -/
structure Entry where
  title : Option String
  published : Option String
  links : Option (List Link)
deriving DecidableEq

/-- Result of `feedparser.parse`: a `bozo_exception` key present only on a
malformed parse, an HTTP status, and the list of items. -/
structure Feed where
  bozo_exception : Option String
  status : Nat
  items : List Entry
deriving DecidableEq

/-- Outcome of one `subprocess.run(['curl', '-Lso', file_name, url], timeout=300)`
invocation: either the call raised (timeout / transport error), possibly
leaving a partial file of some size behind, or it completed with an exit
code, having written the output file (`none` = curl never created it). -/
inductive CurlResult where
  | exc (written : Option Nat)
  | completed (rc : Int) (written : Option Nat)
deriving DecidableEq

/-- Environment of external capabilities: the feed parser, the curl
subprocess, whether `audio.save` succeeds at a path, and the current time
(`datetime.datetime.now()`), reduced to its date. -/
structure Env where
  parse : String → Feed
  curl : String → String → CurlResult
  saveOk : String → Bool
  now : Date

/-- Result of one `get_feed` call: the final file system, the exception it
raised (`none` = returned normally) and how many downloads it attempted. -/
structure SyncOut where
  fs : FS
  err : Option PyErr
  downloads : Nat

/-- Python `str.endswith`: char-sequence suffix test. -/
def endswith (s suffix : String) : Bool :=
  suffix.data.isSuffixOf s.data

/-- Mutation of `FS` by writing raw downloaded bytes (`w = some n` means
curl created/overwrote the file with `n` bytes and no tags we track). -/
def applyWrite (fs : FS) (p : String) (w : Option Nat) : FS :=
  match w with
  | none => fs
  | some n => fun q => if q = p then some ⟨n, none, none⟩ else fs q

/-- Deletion, `os.unlink` on a path known to be present. -/
def fsUnlink (fs : FS) (p : String) : FS :=
  fun q => if q = p then none else fs q

/-- Lines 47-49, `check_presence`: `pathlib.Path(file_name).exists()`. -/
def check_presence (fs : FS) (file_name : String) : Bool :=
  (fs file_name).isSome

/-- Model of `os.path.getsize`; in the program it is only evaluated after
`check_presence` returned true (short-circuit `or`), so the value on an
absent path is never observed. -/
def getsize (fs : FS) (file_name : String) : Nat :=
  match fs file_name with
  | some f => f.size
  | none => 0

/-- Line 128 condition: `not check_presence(file_name) or os.path.getsize(file_name) == 0`. -/
def needs_download (fs : FS) (file_name : String) : Bool :=
  !(check_presence fs file_name) || (getsize fs file_name == 0)

/-- Lines 80-93, `download_mp3`.  On a subprocess exception the handler
assigns the misspelled `sucess` and the following `proc.returncode` reads
the never-assigned `proc`, raising `UnboundLocalError`; on completion a
nonzero exit code yields `False`, zero yields `True`. -/
def download_mp3 (env : Env) (fs : FS) (file_name url : String) :
    FS × Except PyErr Bool :=
  match env.curl file_name url with
  | .exc w => (applyWrite fs file_name w, .error .unboundLocal)
  | .completed rc w =>
    let fs1 := applyWrite fs file_name w
    if rc ≠ 0 then (fs1, .ok false) else (fs1, .ok true)

/-- Lines 58-76, `store_meta`.  Reading existing tags (`EasyID3(target)`)
is guarded by a bare `except` that falls back to a default tag object, so
the read has no observable effect on the final state; then
`audio['title'] = entry['title']` raises `KeyError` when the entry has no
title; `audio.save(target)` on a missing file raises, and any exception
from `save` hits `except MutagenError`, an undefined name, so a save
failure escapes as `NameError`. -/
def store_meta (env : Env) (fs : FS) (target : String)
    (title : Option String) (date : String) : FS × Option PyErr :=
  match title with
  | none => (fs, some .keyError)
  | some t =>
    match fs target with
    | none => (fs, some .nameError)
    | some f =>
      if env.saveOk target then
        (fun q => if q = target then some ⟨f.size, some t, some date⟩ else fs q, none)
      else
        (fs, some .nameError)

/-- Line 108: `i['title'].replace(' ', '.').replace('/', '-')` (each
`str.replace` with single-character arguments is a character map). -/
def sanitize (t : String) : String :=
  ⟨(t.data.map (fun c => if c = ' ' then '.' else c)).map
    (fun c => if c = '/' then '-' else c)⟩

/-- Python `name[-1]`: the last character, absent for the empty string
(where the subscript raises `IndexError`). -/
def lastChar (s : String) : Option Char :=
  s.data.getLast?

/-- Lines 124-125: append a `'.'` unless the name already ends in one. -/
def with_dot (name : String) : String :=
  if name.data.getLast? ≠ some '.' then name ++ "." else name

/-- Line 127: `path + '/' + name + date_id3 + '.mp3'`. -/
def mkTarget (path name date_id3 : String) : String :=
  path ++ "/" ++ name ++ date_id3 ++ ".mp3"

/-- Decimal digit character. -/
def digitChar (n : Nat) : Char := Char.ofNat (48 + n)

/-- Decimal digits, most significant first, with explicit fuel (the fuel
`n + 1` always suffices since a number has at most `n + 1` digits). -/
def natDigitsAux : Nat → Nat → List Char
  | 0, _ => []
  | fuel + 1, n =>
    if n < 10 then [digitChar n]
    else natDigitsAux fuel (n / 10) ++ [digitChar (n % 10)]

/-- Decimal digits of a natural number, most significant first. -/
def natDigits (n : Nat) : List Char := natDigitsAux (n + 1) n

/-- Zero-pad a digit string on the left to width `w`. -/
def zpad (w : Nat) (l : List Char) : List Char :=
  List.replicate (w - l.length) '0' ++ l

/-- Line 116: `date.strftime('%Y-%m-%d')` — year to four digits, month and
day to two, separated by dashes. -/
def formatDate (dt : Date) : String :=
  ⟨zpad 4 (natDigits dt.y) ++ '-' :: (zpad 2 (natDigits dt.m) ++ '-' :: zpad 2 (natDigits dt.d))⟩

/-- Whitespace as matched by the `\s+` separators `strptime` compiles for
blanks in the format string. -/
def isWs (c : Char) : Bool :=
  c = ' ' || c = '\t' || c = '\n' || c = '\r' || c = '\x0b' || c = '\x0c'

/-- Decimal digit test. -/
def isDigitCh (c : Char) : Bool := '0' ≤ c && c ≤ '9'

/-- Value of a digit string. -/
def digitsVal (l : List Char) : Nat :=
  l.foldl (fun a c => a * 10 + (c.toNat - 48)) 0

/-- Lower-cased token, for the case-insensitive name matching of `strptime`. -/
def lowerStr (l : List Char) : String := ⟨l.map Char.toLower⟩

/-- Abbreviated weekday names accepted by `%a`. -/
def dayAbbrevs : List String := ["mon", "tue", "wed", "thu", "fri", "sat", "sun"]

/-- Abbreviated month names accepted by `%b`. -/
def monthAbbrevs : List String :=
  ["jan", "feb", "mar", "apr", "may", "jun", "jul", "aug", "sep", "oct", "nov", "dec"]

/-- Month number of an abbreviated month token, if it is one. -/
def monthNum (tok : List Char) : Option Nat :=
  (monthAbbrevs.findIdx? (fun m => m = lowerStr tok)).map (· + 1)

/-- Length of a month, as validated by the `datetime` constructor. -/
def daysInMonth (y m : Nat) : Nat :=
  if m = 2 then (if (y % 4 = 0 && y % 100 ≠ 0) || y % 400 = 0 then 29 else 28)
  else if m = 4 || m = 6 || m = 9 || m = 11 then 30 else 31

/-- Validation of a `%z` timezone token: the forms `Z`, `±HHMM` and
`±HH:MM`, with the `datetime.timezone` bound of strictly less than 24
hours of offset. -/
def tzOk : List Char → Bool
  | ['Z'] => true
  | c :: rest =>
    (c = '+' || c = '-') &&
    (match rest with
     | [h1, h2, m1, m2] =>
       isDigitCh h1 && isDigitCh h2 && isDigitCh m1 && isDigitCh m2 &&
       decide (digitsVal [h1, h2] * 60 + digitsVal [m1, m2] < 24 * 60)
     | [h1, h2, ':', m1, m2] =>
       isDigitCh h1 && isDigitCh h2 && isDigitCh m1 && isDigitCh m2 &&
       decide (digitsVal [h1, h2] * 60 + digitsVal [m1, m2] < 24 * 60)
     | _ => false)
  | _ => false

/-- Model of `datetime.datetime.strptime(s, '%a, %d %b %Y %H:%M:%S %z')`
(line 53): an abbreviated weekday then `, `, then day (1-2 digits, 1-31),
month abbreviation, four-digit year, `H:M:S` time and a timezone token,
separated by runs of whitespace, consuming the whole string; followed by
the `datetime` constructor's range checks (year at least 1, day within
the month, seconds at most 59).  Only the date part is observable
downstream. -/
def strptime822 (l : List Char) : Except PyErr Date :=
  let p0 := l.span (fun c => !(c = ','))
  match p0.2 with
  | ',' :: r1 =>
    if dayAbbrevs.contains (lowerStr p0.1) then
      let q1 := r1.span isWs
      let qd := q1.2.span isDigitCh
      let q2 := qd.2.span isWs
      let qm := q2.2.span (fun c => c.isAlpha)
      let q3 := qm.2.span isWs
      let qy := q3.2.span isDigitCh
      let q4 := qy.2.span isWs
      let qh := q4.2.span isDigitCh
      match qh.2 with
      | ':' :: r10 =>
        let qmin := r10.span isDigitCh
        match qmin.2 with
        | ':' :: r12 =>
          let qs := r12.span isDigitCh
          let q5 := qs.2.span isWs
          match monthNum qm.1 with
          | none => .error .valueError
          | some mon =>
            let day := digitsVal qd.1
            let yr := digitsVal qy.1
            if q1.1 ≠ [] ∧ (qd.1.length = 1 ∨ qd.1.length = 2) ∧ 1 ≤ day ∧ day ≤ 31 ∧
               q2.1 ≠ [] ∧ q3.1 ≠ [] ∧ qy.1.length = 4 ∧
               q4.1 ≠ [] ∧ (qh.1.length = 1 ∨ qh.1.length = 2) ∧ digitsVal qh.1 ≤ 23 ∧
               (qmin.1.length = 1 ∨ qmin.1.length = 2) ∧ digitsVal qmin.1 ≤ 59 ∧
               (qs.1.length = 1 ∨ qs.1.length = 2) ∧ digitsVal qs.1 ≤ 59 ∧
               q5.1 ≠ [] ∧ tzOk q5.2 = true ∧
               1 ≤ yr ∧ day ≤ daysInMonth yr mon
            then .ok ⟨yr, mon, day⟩
            else .error .valueError
        | _ => .error .valueError
      | _ => .error .valueError
    else .error .valueError
  | _ => .error .valueError

/-- Lines 52-53, `get_date`: parse the `published` string with the fixed
RFC-822-style format; an unparsable string raises `ValueError`. -/
def get_date (s : String) : Except PyErr Date :=
  strptime822 s.data

/-- Lines 107-110: the display name is the sanitized title, or the show
name when the entry has no `title` key. -/
def entryName (show_name : String) (i : Entry) : String :=
  match i.title with
  | some t => sanitize t
  | none => show_name

/-- Lines 111-114: the effective date is `date_func(i['published'])` when
the key is present (any parse error propagates), else `datetime.now()`. -/
def entryDate (date_func : String → Except PyErr Date) (now : Date) (i : Entry) :
    Except PyErr Date :=
  match i.published with
  | some p => date_func p
  | none => .ok now

/-- State threaded through the link loop of one entry: the (mutable)
`name` variable, the file system and the download-attempt count. -/
structure LoopSt where
  name : String
  fs : FS
  downloads : Nat

/-- Lines 120-139, the body of the inner `for j in li` loop for one link:
skip links without `href` or not ending in the suffix; otherwise read
`name[-1]` (raising `IndexError` on an empty name), ensure the trailing
dot, build the target path, and either skip a present nonzero-size file,
or download, then tag on success or delete the partial file on reported
failure (`os.unlink` raising if curl left no file behind). -/
def processLink (env : Env) (path suffix date_id3 : String) (title : Option String)
    (st : LoopSt) (j : Link) : Except (PyErr × LoopSt) LoopSt :=
  match j.href with
  | none => .ok st
  | some href =>
    if endswith href suffix then
      match lastChar st.name with
      | none => .error (.indexError, st)
      | some _ =>
        let name := with_dot st.name
        let file_name := mkTarget path name date_id3
        if needs_download st.fs file_name then
          match download_mp3 env st.fs file_name href with
          | (fs1, .error e) => .error (e, ⟨name, fs1, st.downloads + 1⟩)
          | (fs1, .ok true) =>
            match store_meta env fs1 file_name title date_id3 with
            | (fs2, some e) => .error (e, ⟨name, fs2, st.downloads + 1⟩)
            | (fs2, none) => .ok ⟨name, fs2, st.downloads + 1⟩
          | (fs1, .ok false) =>
            match fs1 file_name with
            | none => .error (.fileNotFound, ⟨name, fs1, st.downloads + 1⟩)
            | some _ => .ok ⟨name, fsUnlink fs1 file_name, st.downloads + 1⟩
        else
          .ok ⟨name, st.fs, st.downloads⟩
    else .ok st

/-- The inner `for j in li` loop: run `processLink` over the links in
order, propagating a raised exception. -/
def runLinks (env : Env) (path suffix date_id3 : String) (title : Option String) :
    LoopSt → List Link → Except (PyErr × LoopSt) LoopSt
  | st, [] => .ok st
  | st, j :: js =>
    match processLink env path suffix date_id3 title st j with
    | .ok st1 => runLinks env path suffix date_id3 title st1 js
    | .error e => .error e

/-- Lines 106-139, the body of the outer `for i in rss['items']` loop for
one entry: compute the display name and the effective date (line 116
formats it as `%Y-%m-%d`), then process the entry's links if any. -/
def processEntry (env : Env) (path show_name suffix : String)
    (date_func : String → Except PyErr Date) (acc : FS × Nat) (i : Entry) :
    Except (PyErr × FS × Nat) (FS × Nat) :=
  let name := entryName show_name i
  match entryDate date_func env.now i with
  | .error e => .error (e, acc)
  | .ok date =>
    let date_id3 := formatDate date
    match i.links with
    | none => .ok acc
    | some li =>
      match runLinks env path suffix date_id3 i.title ⟨name, acc.1, acc.2⟩ li with
      | .ok st => .ok (st.fs, st.downloads)
      | .error (e, st) => .error (e, st.fs, st.downloads)

/-- The outer `for i in rss['items']` loop. -/
def runEntries (env : Env) (path show_name suffix : String)
    (date_func : String → Except PyErr Date) :
    FS × Nat → List Entry → Except (PyErr × FS × Nat) (FS × Nat)
  | acc, [] => .ok acc
  | acc, i :: is =>
    match processEntry env path show_name suffix date_func acc i with
    | .ok acc1 => runEntries env path show_name suffix date_func acc1 is
    | .error e => .error e

/-- Lines 97-139, `get_feed`: parse the feed; when `bozo_exception` is
present the handler calls the misspelled `loggging.error`, raising
`NameError` before anything else happens; otherwise process the items when
the status is 200 and do nothing (silently) when it is not. -/
def get_feed (env : Env) (path url show_name suffix : String)
    (date_func : String → Except PyErr Date) (fs0 : FS) : SyncOut :=
  let rss := env.parse url
  match rss.bozo_exception with
  | some _ => ⟨fs0, some .nameError, 0⟩
  | none =>
    if rss.status = 200 then
      match runEntries env path show_name suffix date_func (fs0, 0) rss.items with
      | .ok (fs, dl) => ⟨fs, none, dl⟩
      | .error (e, fs, dl) => ⟨fs, some e, dl⟩
    else ⟨fs0, none, 0⟩

/-- One config section as `main` reads it. -/
structure Sec where
  filename : String
  path : String
  url : String
deriving DecidableEq

/-- Lines 159-172, the per-section body of `main`, returning the argument
tuple `(path, url, section name, suffix)` of the `get_feed` call it makes,
or `none` when it makes no call.  When `len(sec['filename']) == 0` the
code assigns the default `file_name = 'stream.mp3'` but the rest of the
body — including the `get_feed` call — sits inside the `else:` branch, so
the assignment is dead and the source is skipped. -/
def process_section (isdirW : String → Bool) (name : String) (sec : Sec) :
    Option (String × String × String × String) :=
  if sec.filename.length = 0 then
    none
  else
    let file_name := sec.filename
    let path := sec.path
    if isdirW path then some (path, sec.url, name, file_name) else none

/-! Specification-side helpers used to state and prove properties of the
sync procedure (these do not embed code; they describe it). -/

/-- How the `name` variable evolves over one link of the inner loop (the
dot is appended for every matching link, before the presence check). -/
def nameStep (suffix name : String) (j : Link) : String :=
  match j.href with
  | none => name
  | some h => if endswith h suffix then with_dot name else name

/-- The `name` variable after a whole link list. -/
def threadName (suffix name : String) : List Link → String
  | [] => name
  | j :: js => threadName suffix (nameStep suffix name j) js

/-- The target paths of the matching links of a link list, with the
`name` variable threaded the way the loop threads it. -/
def linkTargets (path suffix date_id3 name : String) : List Link → List String
  | [] => []
  | j :: js =>
    (match j.href with
     | none => []
     | some h =>
       if endswith h suffix then [mkTarget path (with_dot name) date_id3] else []) ++
    linkTargets path suffix date_id3 (nameStep suffix name j) js

/-- A usable downloaded file is present at `p`: existing and nonempty. -/
def goodAt (fs : FS) (p : String) : Prop :=
  ∃ mf, fs p = some mf ∧ 0 < mf.size

/-- A fetch capability that always succeeds and writes nonempty files. -/
def goodCurl (curl : String → String → CurlResult) : Prop :=
  ∀ f u, ∃ n, curl f u = .completed 0 (some n) ∧ 0 < n

/-- An entry the sync procedure can process without raising: it has a
title, a nonempty display name and a well-defined effective date. -/
def entryOK (date_func : String → Except PyErr Date) (now : Date)
    (show_name : String) (i : Entry) : Prop :=
  i.title.isSome ∧ entryName show_name i ≠ "" ∧ ∃ d, entryDate date_func now i = .ok d

/-- All download target paths of one entry. -/
def entryTargets (now : Date) (date_func : String → Except PyErr Date)
    (path show_name suffix : String) (i : Entry) : List String :=
  match entryDate date_func now i with
  | .error _ => []
  | .ok d =>
    match i.links with
    | none => []
    | some li => linkTargets path suffix (formatDate d) (entryName show_name i) li

/-! Concrete fixtures: small feeds and environments used to evaluate the
sync procedure at specific inputs. -/

/-- The empty file system. -/
def fsEmpty : FS := fun _ => none

/-- A feed with one titled entry, no published date, one matching link. -/
def feedOneA : Feed := ⟨none, 200, [⟨some "A", none, some [⟨some "u.mp3"⟩]⟩]⟩

/-- Environment whose curl raises (timeout or transport error) after
writing a 37-byte partial file. -/
def envTimeout : Env := ⟨fun _ => feedOneA, fun _ _ => .exc (some 37), fun _ => true, ⟨2024, 5, 5⟩⟩

/-- Environment whose feed parse reports a bozo condition. -/
def envBozo : Env :=
  ⟨fun _ => ⟨some "malformed XML", 200, []⟩, fun _ _ => .completed 0 (some 1), fun _ => true,
    ⟨2024, 5, 5⟩⟩

/-- Environment where downloads succeed but the tag save raises. -/
def envSaveFail : Env :=
  ⟨fun _ => feedOneA, fun _ _ => .completed 0 (some 50), fun _ => false, ⟨2024, 5, 5⟩⟩

/-- Environment whose feed has an entry with an empty title string. -/
def envEmptyTitle : Env :=
  ⟨fun _ => ⟨none, 200, [⟨some "", none, some [⟨some "u.mp3"⟩]⟩]⟩,
    fun _ _ => .completed 0 (some 50), fun _ => true, ⟨2024, 5, 5⟩⟩

/-- Environment whose feed has an untitled entry (name falls back to the
show name, which the caller passes as empty). -/
def envNoTitle : Env :=
  ⟨fun _ => ⟨none, 200, [⟨none, none, some [⟨some "u.mp3"⟩]⟩]⟩,
    fun _ _ => .completed 0 (some 50), fun _ => true, ⟨2024, 5, 5⟩⟩

/-- Environment whose feed entry carries an unparsable published string. -/
def envBadDate : Env :=
  ⟨fun _ => ⟨none, 200, [⟨some "X", some "not a date", none⟩]⟩,
    fun _ _ => .completed 0 (some 50), fun _ => true, ⟨2024, 5, 5⟩⟩

/-- The TestCast scenario feed of the specification. -/
def feedTestCast : Feed :=
  ⟨none, 200,
    [⟨some "Episode One", some "Mon, 01 Jan 2024 10:00:00 +0000",
      some [⟨some "http://x/ep1.mp3"⟩]⟩]⟩

/-- Environment for the TestCast scenario: downloads succeed with 100
bytes and tag saves succeed. -/
def envTestCast : Env :=
  ⟨fun _ => feedTestCast, fun _ _ => .completed 0 (some 100), fun _ => true, ⟨2024, 5, 5⟩⟩

/-- Environment for the repeated-sync scenario. -/
def envTwice : Env :=
  ⟨fun _ => ⟨none, 200, [⟨some "A B", none, some [⟨some "u.mp3"⟩]⟩]⟩,
    fun _ _ => .completed 0 (some 9), fun _ => true, ⟨2024, 5, 5⟩⟩

/-- A file system holding one nonempty file, at a derived target path. -/
def fsOneFile : FS :=
  fun q => if q = "/d/A.2024-01-01.mp3" then some ⟨7, none, none⟩ else none

/-- A file system holding one zero-size file. -/
def fsZeroFile : FS := fun q => if q = "/p" then some ⟨0, none, none⟩ else none

/-! Helper lemmas. -/

/-- The data of a sanitized title, unfolded. -/
theorem sanitize_data (t : String) :
    (sanitize t).data
      = (t.data.map fun c => if c = ' ' then '.' else c).map
          (fun c => if c = '/' then '-' else c) := rfl

/-- A nonempty string has a last character. -/
theorem lastChar_isSome (s : String) (h : s ≠ "") : ∃ c, lastChar s = some c := by
  have hd : s.data ≠ [] := by
    intro hnil
    apply h
    cases s
    simp_all
  rcases hx : s.data.getLast? with _ | c
  · exact absurd (List.getLast?_eq_none_iff.mp hx) hd
  · exact ⟨c, hx⟩

/-- Appending the separator never yields the empty name. -/
theorem with_dot_ne_empty (name : String) : with_dot name ≠ "" := by
  unfold with_dot
  split
  · intro h
    have : (name ++ ".").data = ("" : String).data := by rw [h]
    rw [String.data_append] at this
    simp at this
  · next h =>
    rw [not_not] at h
    intro he
    rw [he] at h
    simp at h

/-- The name after the dot fix always ends with a dot. -/
theorem with_dot_getLast (name : String) : (with_dot name).data.getLast? = some '.' := by
  unfold with_dot
  split
  · rw [String.data_append]
    exact List.getLast?_concat _
  · next h => exact not_not.mp h

/-- The skip condition of line 128 is false exactly when a file of
nonzero size is present at the target path. -/
theorem needs_download_eq_false_iff (fs : FS) (f : String) :
    needs_download fs f = false ↔ ∃ mf, fs f = some mf ∧ mf.size ≠ 0 := by
  unfold needs_download check_presence getsize
  cases h : fs f <;> simp [h]

/-- A matching link whose target already holds a nonzero-size file is
skipped: the state is unchanged but for the name's trailing dot. -/
theorem processLink_skip (env : Env) (path suffix date_id3 : String) (title : Option String)
    (st : LoopSt) (h : String) (hm : endswith h suffix = true)
    (c : Char) (hlc : lastChar st.name = some c)
    (hnd : needs_download st.fs (mkTarget path (with_dot st.name) date_id3) = false) :
    processLink env path suffix date_id3 title st ⟨some h⟩
      = .ok ⟨with_dot st.name, st.fs, st.downloads⟩ := by
  simp [processLink, hm, hlc, hnd]

/-- Digit characters are digits. -/
theorem digitChar_isDigit (n : Nat) (h : n < 10) : (digitChar n).isDigit = true := by
  interval_cases n <;> decide

/-- Every character produced by the digit conversion is a digit. -/
theorem natDigitsAux_isDigit (fuel : Nat) :
    ∀ n, ∀ c ∈ natDigitsAux fuel n, c.isDigit = true := by
  induction fuel with
  | zero => intro n c hc; simp [natDigitsAux] at hc
  | succ fuel ih =>
    intro n c hc
    rw [natDigitsAux] at hc
    split at hc
    · next h =>
      simp at hc
      subst hc
      exact digitChar_isDigit n h
    · rw [List.mem_append] at hc
      rcases hc with hc | hc
      · exact ih _ c hc
      · simp at hc
        subst hc
        exact digitChar_isDigit _ (Nat.mod_lt _ (by omega))

/-- The digit conversion of `n < 10 ^ k` has at most `k` digits. -/
theorem natDigitsAux_length_le (fuel : Nat) :
    ∀ n k, n < 10 ^ k → 1 ≤ k → (natDigitsAux fuel n).length ≤ k := by
  induction fuel with
  | zero => intro n k _ _; simp [natDigitsAux]
  | succ fuel ih =>
    intro n k hn hk
    rw [natDigitsAux]
    split
    · simpa using hk
    · next h =>
      have hk2 : 2 ≤ k := by
        by_contra hlt
        have : k = 1 := by omega
        subst this
        simp at hn
        omega
      have hdiv : n / 10 < 10 ^ (k - 1) := by
        apply Nat.div_lt_of_lt_mul
        calc n < 10 ^ k := hn
        _ = 10 * 10 ^ (k - 1) := by
          rw [← pow_succ']
          congr 1
          omega
      have := ih (n / 10) (k - 1) hdiv (by omega)
      simp only [List.length_append, List.length_cons, List.length_nil]
      omega

/-- The digit conversion of a bounded number has at most `k` digits. -/
theorem natDigits_length_le (n k : Nat) (hn : n < 10 ^ k) (hk : 1 ≤ k) :
    (natDigits n).length ≤ k :=
  natDigitsAux_length_le (n + 1) n k hn hk

/-- Zero-padding to a sufficient width yields exactly that width. -/
theorem zpad_length (w : Nat) (l : List Char) (h : l.length ≤ w) :
    (zpad w l).length = w := by
  simp [zpad]
  omega

/-- Every character of a zero-padded digit list is a digit. -/
theorem zpad_isDigit (w : Nat) (l : List Char) (hl : ∀ c ∈ l, c.isDigit = true) :
    ∀ c ∈ zpad w l, c.isDigit = true := by
  intro c hc
  rw [zpad, List.mem_append] at hc
  rcases hc with hc | hc
  · rw [List.eq_of_mem_replicate hc]
    decide
  · exact hl c hc

/-- The name variable never becomes empty during the link loop. -/
theorem nameStep_ne_empty (suffix name : String) (j : Link) (hn : name ≠ "") :
    nameStep suffix name j ≠ "" := by
  obtain ⟨href⟩ := j
  cases href with
  | none => exact hn
  | some h =>
    simp only [nameStep]
    split
    · exact with_dot_ne_empty name
    · exact hn

/-- Under a succeeding fetch capability and succeeding tag saves, one
link step never raises, threads the name like `nameStep`, preserves good
files everywhere and establishes a good file at the link's target. -/
theorem processLink_ok (env : Env) (path suffix date_id3 t : String)
    (hc : goodCurl env.curl) (hs : ∀ f, env.saveOk f = true)
    (st : LoopSt) (j : Link) (hn : st.name ≠ "") :
    ∃ fs1 dl1,
      processLink env path suffix date_id3 (some t) st j
        = .ok ⟨nameStep suffix st.name j, fs1, dl1⟩ ∧
      (∀ p, goodAt st.fs p → goodAt fs1 p) ∧
      ∀ q ∈ linkTargets path suffix date_id3 st.name [j], goodAt fs1 q := by
  obtain ⟨href⟩ := j
  cases href with
  | none =>
    exact ⟨st.fs, st.downloads, by simp [processLink, nameStep], fun p hp => hp,
      by simp [linkTargets]⟩
  | some h =>
    by_cases hm : endswith h suffix
    · obtain ⟨c, hlc⟩ := lastChar_isSome st.name hn
      by_cases hnd : needs_download st.fs (mkTarget path (with_dot st.name) date_id3)
      · obtain ⟨n, hcurl, hpos⟩ := hc (mkTarget path (with_dot st.name) date_id3) h
        have e1 : download_mp3 env st.fs (mkTarget path (with_dot st.name) date_id3) h
            = (applyWrite st.fs (mkTarget path (with_dot st.name) date_id3) (some n),
               .ok true) := by
          simp [download_mp3, hcurl]
        have e2 : applyWrite st.fs (mkTarget path (with_dot st.name) date_id3) (some n)
            (mkTarget path (with_dot st.name) date_id3) = some ⟨n, none, none⟩ := by
          simp [applyWrite]
        have e3 : store_meta env
            (applyWrite st.fs (mkTarget path (with_dot st.name) date_id3) (some n))
            (mkTarget path (with_dot st.name) date_id3) (some t) date_id3
            = (fun q => if q = mkTarget path (with_dot st.name) date_id3 then
                 some ⟨n, some t, some date_id3⟩
               else applyWrite st.fs (mkTarget path (with_dot st.name) date_id3) (some n) q,
               none) := by
          simp [store_meta, e2, hs]
        refine ⟨fun q => if q = mkTarget path (with_dot st.name) date_id3 then
            some ⟨n, some t, some date_id3⟩
          else applyWrite st.fs (mkTarget path (with_dot st.name) date_id3) (some n) q,
          st.downloads + 1, ?_, ?_, ?_⟩
        · simp [processLink, hm, hlc, hnd, e1, e3, nameStep]
        · intro p hp
          by_cases hq : p = mkTarget path (with_dot st.name) date_id3
          · subst hq
            exact ⟨⟨n, some t, some date_id3⟩, by simp, hpos⟩
          · obtain ⟨mf, hmf, hsz⟩ := hp
            exact ⟨mf, by simp [hq, applyWrite, hmf], hsz⟩
        · intro q hq
          simp [linkTargets, hm] at hq
          subst hq
          exact ⟨⟨n, some t, some date_id3⟩, by simp, hpos⟩
      · rw [Bool.not_eq_true] at hnd
        refine ⟨st.fs, st.downloads, ?_, fun p hp => hp, ?_⟩
        · rw [processLink_skip env path suffix date_id3 (some t) st h hm c hlc hnd]
          simp [nameStep, hm]
        · intro q hq
          simp [linkTargets, hm] at hq
          subst hq
          obtain ⟨mf, hmf, hsz⟩ := (needs_download_eq_false_iff _ _).mp hnd
          exact ⟨mf, hmf, by omega⟩
    · refine ⟨st.fs, st.downloads, ?_, fun p hp => hp, ?_⟩
      · simp [processLink, hm, nameStep]
      · simp [linkTargets, hm]

/-- Under a succeeding fetch capability and succeeding tag saves, the
link loop never raises, threads the name like `threadName`, preserves
good files and establishes a good file at every target. -/
theorem runLinks_ok (env : Env) (path suffix date_id3 t : String)
    (hc : goodCurl env.curl) (hs : ∀ f, env.saveOk f = true) :
    ∀ (li : List Link) (st : LoopSt), st.name ≠ "" →
    ∃ fs1 dl1,
      runLinks env path suffix date_id3 (some t) st li
        = .ok ⟨threadName suffix st.name li, fs1, dl1⟩ ∧
      (∀ p, goodAt st.fs p → goodAt fs1 p) ∧
      ∀ q ∈ linkTargets path suffix date_id3 st.name li, goodAt fs1 q := by
  intro li
  induction li with
  | nil =>
    intro st hn
    exact ⟨st.fs, st.downloads, rfl, fun p hp => hp, by simp [linkTargets]⟩
  | cons j js ih =>
    intro st hn
    obtain ⟨fs1, dl1, he1, hm1, ht1⟩ := processLink_ok env path suffix date_id3 t hc hs st j hn
    obtain ⟨fs2, dl2, he2, hm2, ht2⟩ :=
      ih ⟨nameStep suffix st.name j, fs1, dl1⟩ (nameStep_ne_empty suffix st.name j hn)
    refine ⟨fs2, dl2, ?_, fun p hp => hm2 p (hm1 p hp), ?_⟩
    · rw [runLinks, he1]
      exact he2
    · intro q hq
      rw [linkTargets, List.mem_append] at hq
      rcases hq with hq | hq
      · refine hm2 q (ht1 q ?_)
        simp [linkTargets]
        exact hq
      · exact ht2 q hq

/-- When every target of the link list already holds a good file, the
link loop only threads the name: no download, no file change. -/
theorem runLinks_skip (env : Env) (path suffix date_id3 : String) (title : Option String) :
    ∀ (li : List Link) (st : LoopSt), st.name ≠ "" →
    (∀ q ∈ linkTargets path suffix date_id3 st.name li, goodAt st.fs q) →
    runLinks env path suffix date_id3 title st li
      = .ok ⟨threadName suffix st.name li, st.fs, st.downloads⟩ := by
  intro li
  induction li with
  | nil => intro st hn hg; rfl
  | cons j js ih =>
    intro st hn hg
    obtain ⟨href⟩ := j
    cases href with
    | none =>
      rw [runLinks]
      have : processLink env path suffix date_id3 title st ⟨none⟩ = .ok st := by
        simp [processLink]
      rw [this]
      have := ih st hn (fun q hq => hg q (by simpa [linkTargets, nameStep] using hq))
      simpa [threadName, nameStep] using this
    | some h =>
      by_cases hm : endswith h suffix
      · obtain ⟨c, hlc⟩ := lastChar_isSome st.name hn
        have hgood : goodAt st.fs (mkTarget path (with_dot st.name) date_id3) :=
          hg _ (by simp [linkTargets, hm])
        have hnd : needs_download st.fs (mkTarget path (with_dot st.name) date_id3) = false := by
          rw [needs_download_eq_false_iff]
          obtain ⟨mf, hmf, hsz⟩ := hgood
          exact ⟨mf, hmf, by omega⟩
        rw [runLinks, processLink_skip env path suffix date_id3 title st h hm c hlc hnd]
        have := ih ⟨with_dot st.name, st.fs, st.downloads⟩ (with_dot_ne_empty st.name)
          (fun q hq => hg q (by simp [linkTargets, hm, nameStep]; right; exact hq))
        simpa [threadName, nameStep, hm] using this
      · rw [runLinks]
        have : processLink env path suffix date_id3 title st ⟨some h⟩ = .ok st := by
          simp [processLink, hm]
        rw [this]
        have := ih st hn (fun q hq => hg q (by simpa [linkTargets, nameStep, hm] using hq))
        simpa [threadName, nameStep, hm] using this

/-- Under a succeeding fetch capability and succeeding tag saves, one
entry step never raises, preserves good files and establishes a good file
at every target of the entry. -/
theorem processEntry_ok (env : Env) (path show_name suffix : String)
    (date_func : String → Except PyErr Date)
    (hc : goodCurl env.curl) (hs : ∀ f, env.saveOk f = true)
    (i : Entry) (hok : entryOK date_func env.now show_name i) (fs : FS) (dl : Nat) :
    ∃ fs1 dl1,
      processEntry env path show_name suffix date_func (fs, dl) i = .ok (fs1, dl1) ∧
      (∀ p, goodAt fs p → goodAt fs1 p) ∧
      ∀ q ∈ entryTargets env.now date_func path show_name suffix i, goodAt fs1 q := by
  obtain ⟨hts, hn, d, hd⟩ := hok
  obtain ⟨t, ht⟩ := Option.isSome_iff_exists.mp hts
  cases hl : i.links with
  | none =>
    refine ⟨fs, dl, ?_, fun p hp => hp, ?_⟩
    · simp [processEntry, hd, hl]
    · simp [entryTargets, hd, hl]
  | some li =>
    obtain ⟨fs1, dl1, he, hmono, htg⟩ :=
      runLinks_ok env path suffix (formatDate d) t hc hs li ⟨entryName show_name i, fs, dl⟩ hn
    refine ⟨fs1, dl1, ?_, hmono, ?_⟩
    · simp [processEntry, hd, hl, ht, he]
    · intro q hq
      simp only [entryTargets, hd, hl] at hq
      exact htg q hq

/-- When every target of the entry already holds a good file, the entry
step changes nothing. -/
theorem processEntry_skip (env : Env) (path show_name suffix : String)
    (date_func : String → Except PyErr Date)
    (i : Entry) (hok : entryOK date_func env.now show_name i) (fs : FS) (dl : Nat)
    (hg : ∀ q ∈ entryTargets env.now date_func path show_name suffix i, goodAt fs q) :
    processEntry env path show_name suffix date_func (fs, dl) i = .ok (fs, dl) := by
  obtain ⟨hts, hn, d, hd⟩ := hok
  cases hl : i.links with
  | none => simp [processEntry, hd, hl]
  | some li =>
    have := runLinks_skip env path suffix (formatDate d) i.title li
      ⟨entryName show_name i, fs, dl⟩ hn
      (fun q hq => hg q (by simpa [entryTargets, hd, hl] using hq))
    simp [processEntry, hd, hl, this]

/-- Under a succeeding fetch capability and succeeding tag saves, the
entry loop never raises, preserves good files and establishes a good file
at every target of every entry. -/
theorem runEntries_ok (env : Env) (path show_name suffix : String)
    (date_func : String → Except PyErr Date)
    (hc : goodCurl env.curl) (hs : ∀ f, env.saveOk f = true) :
    ∀ (is : List Entry) (fs : FS) (dl : Nat),
      (∀ i ∈ is, entryOK date_func env.now show_name i) →
      ∃ fs1 dl1,
        runEntries env path show_name suffix date_func (fs, dl) is = .ok (fs1, dl1) ∧
        (∀ p, goodAt fs p → goodAt fs1 p) ∧
        ∀ i ∈ is, ∀ q ∈ entryTargets env.now date_func path show_name suffix i,
          goodAt fs1 q := by
  intro is
  induction is with
  | nil =>
    intro fs dl _
    exact ⟨fs, dl, rfl, fun p hp => hp, by simp⟩
  | cons i is ih =>
    intro fs dl hall
    obtain ⟨fs1, dl1, he1, hm1, ht1⟩ := processEntry_ok env path show_name suffix date_func
      hc hs i (hall i (by simp)) fs dl
    obtain ⟨fs2, dl2, he2, hm2, ht2⟩ := ih fs1 dl1 (fun i' hi' => hall i' (by simp [hi']))
    refine ⟨fs2, dl2, ?_, fun p hp => hm2 p (hm1 p hp), ?_⟩
    · rw [runEntries, he1]
      exact he2
    · intro i' hi' q hq
      rcases List.mem_cons.mp hi' with hi' | hi'
      · subst hi'
        exact hm2 q (ht1 q hq)
      · exact ht2 i' hi' q hq

/-- When every target of every entry already holds a good file, the entry
loop changes nothing. -/
theorem runEntries_skip (env : Env) (path show_name suffix : String)
    (date_func : String → Except PyErr Date) :
    ∀ (is : List Entry) (fs : FS) (dl : Nat),
      (∀ i ∈ is, entryOK date_func env.now show_name i) →
      (∀ i ∈ is, ∀ q ∈ entryTargets env.now date_func path show_name suffix i, goodAt fs q) →
      runEntries env path show_name suffix date_func (fs, dl) is = .ok (fs, dl) := by
  intro is
  induction is with
  | nil => intro fs dl _ _; rfl
  | cons i is ih =>
    intro fs dl hall hg
    rw [runEntries, processEntry_skip env path show_name suffix date_func i
      (hall i (by simp)) fs dl (hg i (by simp))]
    exact ih fs dl (fun i' hi' => hall i' (by simp [hi']))
      (fun i' hi' => hg i' (by simp [hi']))

/-! Claim theorems. -/

/-- Claim C1 (refuting the never-raises contract): when the curl
subprocess raises (a download timeout or transport error), the exception
handler in `download_mp3` assigns the misspelled `sucess` and the
following `proc.returncode` reads the never-assigned `proc`, so
`get_feed` propagates an `UnboundLocalError` instead of returning
normally. -/
theorem get_feed_raises_on_download_exception :
    (get_feed envTimeout "/d" "u" "S" ".mp3" get_date fsEmpty).err = some .unboundLocal := rfl

/-- Claim C2 (refuting the log-and-return-normally part): on a feed whose
parse signals a bozo condition, line 101 calls the misspelled
`loggging.error`, so `get_feed` raises `NameError`; no file is created or
modified and no download is attempted, but the function does not return
normally and logs nothing. -/
theorem bozo_feed_crashes_without_logging :
    get_feed envBozo "/d" "u" "S" ".mp3" get_date fsEmpty
      = ⟨fsEmpty, some .nameError, 0⟩ := rfl

/-- Claim C3 counterexample: an entry whose `published` string is
unparsable makes `get_feed` raise `ValueError`: the current local time is
not used as a fallback as the claim states. -/
theorem unparsable_published_raises :
    (get_feed envBadDate "/d" "u" "S" ".mp3" get_date fsEmpty).err = some .valueError := rfl

/-- Claim C3 (amended): the effective date is `get_date(published)` when
the `published` field is present — any parse error propagates, with no
fallback — and the current local time when the field is absent; the
formatted result always has the shape `YYYY-MM-DD` (four digits, dash,
two digits, dash, two digits) for dates in range. -/
theorem effective_date_spec (i : Entry) (now : Date) :
    (i.published = none → entryDate get_date now i = .ok now) ∧
    (∀ p, i.published = some p → entryDate get_date now i = get_date p) ∧
    (∀ dt : Date, dt.y ≤ 9999 → dt.m ≤ 99 → dt.d ≤ 99 →
      ∃ a b c : List Char,
        (formatDate dt).data = a ++ '-' :: (b ++ '-' :: c) ∧
        a.length = 4 ∧ b.length = 2 ∧ c.length = 2 ∧
        (∀ ch ∈ a, ch.isDigit = true) ∧ (∀ ch ∈ b, ch.isDigit = true) ∧
        (∀ ch ∈ c, ch.isDigit = true)) := by
  refine ⟨fun h => by simp [entryDate, h], fun p h => by simp [entryDate, h],
    fun dt hy hm hd => ?_⟩
  refine ⟨zpad 4 (natDigits dt.y), zpad 2 (natDigits dt.m), zpad 2 (natDigits dt.d),
    rfl, ?_, ?_, ?_, zpad_isDigit _ _ (natDigitsAux_isDigit _ _),
    zpad_isDigit _ _ (natDigitsAux_isDigit _ _), zpad_isDigit _ _ (natDigitsAux_isDigit _ _)⟩
  · exact zpad_length _ _ (natDigits_length_le _ 4 (by norm_num; omega) (by norm_num))
  · exact zpad_length _ _ (natDigits_length_le _ 2 (by norm_num; omega) (by norm_num))
  · exact zpad_length _ _ (natDigits_length_le _ 2 (by norm_num; omega) (by norm_num))

/-- Claim C3 witness: the amended statement evaluated at concrete
entries and a concrete date. -/
theorem effective_date_spec_witness :
    entryDate get_date ⟨2024, 5, 5⟩ ⟨some "T", none, none⟩ = .ok ⟨2024, 5, 5⟩ ∧
    entryDate get_date ⟨2024, 5, 5⟩
        ⟨some "T", some "Mon, 01 Jan 2024 10:00:00 +0000", none⟩
      = get_date "Mon, 01 Jan 2024 10:00:00 +0000" ∧
    (∃ a b c : List Char,
      (formatDate ⟨2024, 1, 1⟩).data = a ++ '-' :: (b ++ '-' :: c) ∧
      a.length = 4 ∧ b.length = 2 ∧ c.length = 2 ∧
      (∀ ch ∈ a, ch.isDigit = true) ∧ (∀ ch ∈ b, ch.isDigit = true) ∧
      (∀ ch ∈ c, ch.isDigit = true)) :=
  ⟨(effective_date_spec ⟨some "T", none, none⟩ ⟨2024, 5, 5⟩).1 rfl,
   (effective_date_spec ⟨some "T", some "Mon, 01 Jan 2024 10:00:00 +0000", none⟩
      ⟨2024, 5, 5⟩).2.1 _ rfl,
   (effective_date_spec ⟨some "T", none, none⟩ ⟨2024, 5, 5⟩).2.2 ⟨2024, 1, 1⟩
      (by norm_num) (by norm_num) (by norm_num)⟩

/-- Claim C4 (refuting it): a source whose filename-suffix field is empty
is skipped entirely — the dead assignment of the default `stream.mp3`
happens, but the `get_feed` call sits in the `else` branch, so no sync
takes place for the source. -/
theorem empty_filename_source_skipped (isdirW : String → Bool) (name path url : String) :
    process_section isdirW name ⟨"", path, url⟩ = none := rfl

/-- Claim C5 (refuting the delete-and-continue behavior for timeouts): a
download attempt whose curl invocation raises leaves the partial file at
the target path in place and aborts the whole sync with
`UnboundLocalError`, instead of deleting the file and continuing. -/
theorem failed_download_leaves_partial_file :
    (get_feed envTimeout "/d" "u" "S" ".mp3" get_date fsEmpty).fs "/d/A.2024-05-05.mp3"
        = some ⟨37, none, none⟩ ∧
    (get_feed envTimeout "/d" "u" "S" ".mp3" get_date fsEmpty).downloads = 1 ∧
    (get_feed envTimeout "/d" "u" "S" ".mp3" get_date fsEmpty).err ≠ none :=
  ⟨rfl, rfl, by intro h; cases h⟩

/-- Claim C6: the download of a matching link is skipped exactly when a
file of nonzero size is present at the target path; a present zero-size
file triggers a re-download; and on a skip the file system and download
count are untouched (only the name variable gains its separator). -/
theorem skip_iff_present_nonzero :
    (∀ (fs : FS) (f : String),
      needs_download fs f = false ↔ ∃ mf, fs f = some mf ∧ mf.size ≠ 0) ∧
    (∀ (env : Env) (path suffix date_id3 : String) (title : Option String)
       (st : LoopSt) (h : String),
      endswith h suffix = true → st.name ≠ "" →
      needs_download st.fs (mkTarget path (with_dot st.name) date_id3) = false →
      processLink env path suffix date_id3 title st ⟨some h⟩
        = .ok ⟨with_dot st.name, st.fs, st.downloads⟩) ∧
    (∀ (fs : FS) (f : String) (mf : MFile), fs f = some mf → mf.size = 0 →
      needs_download fs f = true) := by
  refine ⟨needs_download_eq_false_iff, ?_, ?_⟩
  · intro env path suffix date_id3 title st h hm hn hnd
    obtain ⟨c, hlc⟩ := lastChar_isSome st.name hn
    exact processLink_skip env path suffix date_id3 title st h hm c hlc hnd
  · intro fs f mf hmf hz
    cases hnd : needs_download fs f
    · obtain ⟨mf2, hmf2, hsz⟩ := (needs_download_eq_false_iff fs f).mp hnd
      rw [hmf] at hmf2
      cases hmf2
      exact absurd hz hsz
    · rfl

/-- Claim C6 witness: the skip criterion evaluated at a present
nonzero-size file, a skipping link step, and a present zero-size file. -/
theorem skip_iff_present_nonzero_witness :
    (needs_download fsOneFile "/d/A.2024-01-01.mp3" = false ↔
      ∃ mf, fsOneFile "/d/A.2024-01-01.mp3" = some mf ∧ mf.size ≠ 0) ∧
    processLink envTestCast "/d" ".mp3" "2024-01-01" (some "T") ⟨"A", fsOneFile, 3⟩
        ⟨some "u.mp3"⟩
      = .ok ⟨"A.", fsOneFile, 3⟩ ∧
    needs_download fsZeroFile "/p" = true :=
  ⟨skip_iff_present_nonzero.1 fsOneFile "/d/A.2024-01-01.mp3",
   skip_iff_present_nonzero.2.1 envTestCast "/d" ".mp3" "2024-01-01" (some "T")
     ⟨"A", fsOneFile, 3⟩ "u.mp3" (by decide) (by decide) (by decide),
   skip_iff_present_nonzero.2.2 fsZeroFile "/p" ⟨0, none, none⟩ rfl rfl⟩

/-- Claim C7: sanitized display names contain no spaces and no slashes;
the trailing separator is ensured (a single dot is appended exactly when
the name does not already end in one); and the TestCast scenario produces
the file `/tmp/out/Episode.One.2024-01-01.mp3` with 100 bytes, tag title
`Episode One` and tag date `2024-01-01`, with no exception raised. -/
theorem sanitized_name_and_testcast_scenario :
    (∀ t : String, ∀ c ∈ (sanitize t).data, c ≠ ' ' ∧ c ≠ '/') ∧
    (∀ name : String, (with_dot name).data.getLast? = some '.') ∧
    (∀ name : String, name.data.getLast? ≠ some '.' → with_dot name = name ++ ".") ∧
    (get_feed envTestCast "/tmp/out" "http://x/feed" "TestCast" ".mp3" get_date fsEmpty).err
        = none ∧
    (get_feed envTestCast "/tmp/out" "http://x/feed" "TestCast" ".mp3" get_date fsEmpty).fs
        "/tmp/out/Episode.One.2024-01-01.mp3"
      = some ⟨100, some "Episode One", some "2024-01-01"⟩ := by
  refine ⟨?_, with_dot_getLast, ?_, rfl, rfl⟩
  · intro t c hc
    rw [sanitize_data] at hc
    simp only [List.mem_map] at hc
    obtain ⟨b, ⟨a, _, rfl⟩, rfl⟩ := hc
    constructor <;> split_ifs <;> simp_all
  · intro name h
    unfold with_dot
    rw [if_pos h]

/-- Claim C7 witness: the space/slash-freeness and the dot-append rule at
concrete names. -/
theorem sanitized_name_witness :
    (∀ c ∈ (sanitize "a b/c d").data, c ≠ ' ' ∧ c ≠ '/') ∧
    with_dot "Episode.One" = "Episode.One" ++ "." :=
  ⟨sanitized_name_and_testcast_scenario.1 "a b/c d",
   sanitized_name_and_testcast_scenario.2.2.1 "Episode.One" (by decide)⟩

/-- Claim C8 (refuting the logged-and-swallowed part): when the tag save
raises after a successful download, the `except MutagenError` clause
names an undefined identifier, so `get_feed` propagates `NameError`; the
downloaded file itself is kept (no rollback), as the claim says. -/
theorem save_error_escapes :
    (get_feed envSaveFail "/d" "u" "S" ".mp3" get_date fsEmpty).err = some .nameError ∧
    (get_feed envSaveFail "/d" "u" "S" ".mp3" get_date fsEmpty).fs "/d/A.2024-05-05.mp3"
      = some ⟨50, none, none⟩ := ⟨rfl, rfl⟩

/-- Claim C9: for an unchanged feed (same parse result, same effective
dates) whose entries are processable and whose fetches succeed with
nonempty files, the first sync returns normally and leaves a nonzero-size
file at the target path of every matching enclosure link, and running the
sync a second time from the resulting file system is a no-op: it returns
normally, changes no file and attempts zero downloads — every derived
filename is found again (idempotent derivation) with nonzero size and the
download is skipped. -/
theorem repeated_sync_is_noop (env : Env) (path url show_name suffix : String)
    (date_func : String → Except PyErr Date) (fs0 : FS)
    (hb : (env.parse url).bozo_exception = none)
    (hst : (env.parse url).status = 200)
    (hc : goodCurl env.curl) (hs : ∀ f, env.saveOk f = true)
    (he : ∀ i ∈ (env.parse url).items, entryOK date_func env.now show_name i) :
    (get_feed env path url show_name suffix date_func fs0).err = none ∧
    (∀ i ∈ (env.parse url).items,
      ∀ q ∈ entryTargets env.now date_func path show_name suffix i,
        goodAt (get_feed env path url show_name suffix date_func fs0).fs q) ∧
    get_feed env path url show_name suffix date_func
        ((get_feed env path url show_name suffix date_func fs0).fs)
      = ⟨(get_feed env path url show_name suffix date_func fs0).fs, none, 0⟩ := by
  obtain ⟨fs1, dl1, he1, _, ht1⟩ :=
    runEntries_ok env path show_name suffix date_func hc hs (env.parse url).items fs0 0 he
  have hr1 : get_feed env path url show_name suffix date_func fs0 = ⟨fs1, none, dl1⟩ := by
    simp [get_feed, hb, hst, he1]
  rw [hr1]
  refine ⟨rfl, ?_, ?_⟩
  · intro i hi q hq
    exact ht1 i hi q hq
  · have hskip : runEntries env path show_name suffix date_func (fs1, 0) (env.parse url).items
        = .ok (fs1, 0) :=
      runEntries_skip env path show_name suffix date_func (env.parse url).items fs1 0 he ht1
    simp [get_feed, hb, hst, hskip]

/-- Claim C9 witness: the repeated-sync theorem applied to a concrete
environment with one entry and one matching link. -/
theorem repeated_sync_is_noop_witness :
    goodCurl envTwice.curl ∧
    (∀ i ∈ (envTwice.parse "u").items, entryOK get_date envTwice.now "S" i) ∧
    (get_feed envTwice "/d" "u" "S" ".mp3" get_date fsEmpty).err = none ∧
    get_feed envTwice "/d" "u" "S" ".mp3" get_date
        ((get_feed envTwice "/d" "u" "S" ".mp3" get_date fsEmpty).fs)
      = ⟨(get_feed envTwice "/d" "u" "S" ".mp3" get_date fsEmpty).fs, none, 0⟩ := by
  have hc : goodCurl envTwice.curl := fun f u => ⟨9, rfl, by omega⟩
  have he : ∀ i ∈ (envTwice.parse "u").items, entryOK get_date envTwice.now "S" i := by
    intro i hi
    simp [envTwice] at hi
    subst hi
    exact ⟨rfl, by decide, ⟨2024, 5, 5⟩, rfl⟩
  have h := repeated_sync_is_noop envTwice "/d" "u" "S" ".mp3" get_date fsEmpty
    rfl rfl hc (fun f => rfl) he
  exact ⟨hc, he, h.1, h.2.2⟩

/-- Claim C10: an entry whose title is present but empty (or an untitled
entry when the show name is empty) with a matching enclosure link makes
`get_feed` raise `IndexError` at the `name[-1]` subscript. -/
theorem empty_name_raises_indexError :
    (get_feed envEmptyTitle "/d" "u" "S" ".mp3" get_date fsEmpty).err = some .indexError ∧
    (get_feed envNoTitle "/d" "u" "" ".mp3" get_date fsEmpty).err = some .indexError :=
  ⟨rfl, rfl⟩

end GetML
